import Mathlib

/-!
Verification of the praymodoro time-period core: a shallow embedding of
`src/shared/constants.ts` (the fixed segment table), `src/main/time-controller.ts`
(period calculation, MM:SS formatting, the start/stop/tick/resume machine) and
the app wiring in the main entry (the tick listener that derives the formatted
time for the window and tray observers).
-/

/-- Embedding of the TS union type `PomodoroMode = 'work' | 'rest'`
(src/shared/types.ts). -/
inductive PomodoroMode
  | work
  | rest
deriving DecidableEq, Repr

/-- Embedding of `interface PomodoroSegment` (src/shared/types.ts):
`{ startMinute: number; endMinute: number; type: PomodoroMode }`. -/
structure PomodoroSegment where
  startMinute : Nat
  endMinute : Nat
  type : PomodoroMode
deriving DecidableEq, Repr

/-- Embedding of `interface PomodoroState` (src/shared/types.ts):
`{ type: PomodoroMode; remaining: number }`. `remaining` is an `Int` because in
the source it is computed by JS subtraction, which is not truncated at zero. -/
structure PomodoroState where
  type : PomodoroMode
  remaining : Int
deriving DecidableEq, Repr

/-- Embedding of `POMODORO_SEGMENTS` (src/shared/constants.ts):
four fixed segments 0-25 work, 25-30 rest, 30-55 work, 55-60 rest. -/
def POMODORO_SEGMENTS : List PomodoroSegment :=
  [ { startMinute := 0,  endMinute := 25, type := .work },
    { startMinute := 25, endMinute := 30, type := .rest },
    { startMinute := 30, endMinute := 55, type := .work },
    { startMinute := 55, endMinute := 60, type := .rest } ]

/-- Decimal digits of a natural number, fuel-based so the kernel can evaluate
it (models the digits of JS `Number.prototype.toString`). -/
def natDigitsAux : Nat → Nat → List Char → List Char
  | 0, _, acc => acc
  | fuel + 1, n, acc =>
      let d := Char.ofNat (n % 10 + 48)
      if n < 10 then d :: acc else natDigitsAux fuel (n / 10) (d :: acc)

/-- Decimal string of a natural number, as produced by JS `toString()` on a
non-negative integer. -/
def natToString (n : Nat) : String :=
  ⟨natDigitsAux (n + 1) n []⟩

/-- Decimal string of an integer, as produced by JS `toString()` on an
integer-valued number (minus sign for negatives). -/
def intToString (i : Int) : String :=
  if i < 0 then "-" ++ natToString i.natAbs else natToString i.natAbs

/-- Embedding of JS `String.prototype.padStart(2, '0')`: pad on the left with
`'0'` until the length is at least 2. -/
def padStart2 (str : String) : String :=
  if str.length < 2 then ⟨List.replicate (2 - str.length) '0'⟩ ++ str else str

/-- Embedding of `TimeController.getCurrentPeriod` (src/main/time-controller.ts
lines 18-41), with the wall-clock reading `now.getMinutes()` / `now.getSeconds()`
passed in as arguments. `find` over the segment table; if no segment matches,
the JS code throws (modelled as `Except.error`); otherwise
`remaining = endMinute*60 - (minutes*60 + seconds)`. -/
def getCurrentPeriod (minutes seconds : Nat) : Except String PomodoroState :=
  match POMODORO_SEGMENTS.find?
      (fun sg => decide (minutes ≥ sg.startMinute) && decide (minutes < sg.endMinute)) with
  | none =>
      .error ("Invalid time state: " ++ natToString minutes ++ ":" ++ natToString seconds)
  | some segment =>
      let currentSecond : Int := (minutes : Int) * 60 + (seconds : Int)
      let endSecond : Int := (segment.endMinute : Int) * 60
      .ok { type := segment.type, remaining := endSecond - currentSecond }

/-- Embedding of `TimeController.formatTime` (src/main/time-controller.ts lines
46-50): `mins = Math.floor(seconds/60)` (floor division), `secs = seconds % 60`
(JS truncated remainder), each rendered and padded to two characters. -/
def formatTime (seconds : Int) : String :=
  let mins := Int.fdiv seconds 60
  let secs := Int.tmod seconds 60
  padStart2 (intToString mins) ++ ":" ++ padStart2 (intToString secs)

/-- Events observable from the `TimeController` event emitter: `'tick'` and
`'period-change'`, each carrying the freshly computed `PomodoroState`. -/
inductive TCEvent
  | tick (state : PomodoroState)
  | periodChange (state : PomodoroState)
deriving DecidableEq, Repr

/-- Mutable fields of the `TimeController` class: `intervalId` (modelled as the
Bool `running`, whether the interval is armed) and `lastMode`
(`PomodoroMode | null`, modelled as `Option`). A fresh controller has
`running = false` and `lastMode = none`. -/
structure TimeController where
  running : Bool
  lastMode : Option PomodoroMode
deriving DecidableEq, Repr

/-- Embedding of the private `TimeController.tick` (lines 82-94): compute the
period (a thrown error propagates before anything is emitted), emit `tick`,
then emit `period-change` exactly when `lastMode !== null && lastMode !==
state.type`, then set `lastMode = state.type`. Returns the updated controller
and the emitted events in order. -/
def TimeController.tick (c : TimeController) (minutes seconds : Nat) :
    Except String (TimeController × List TCEvent) := do
  let state ← getCurrentPeriod minutes seconds
  let changeEvents : List TCEvent :=
    match c.lastMode with
    | none => []
    | some lm => if lm ≠ state.type then [.periodChange state] else []
  .ok ({ c with lastMode := some state.type }, .tick state :: changeEvents)

/-- Inputs driving the controller: the public calls `start` and `stop`, the
firing of the armed 1-second interval, and the host power-monitor `resume`
signal. Time-reading inputs carry the wall-clock minute and second that
`new Date()` returns inside the resulting `tick`. -/
inductive TCInput
  | start (minutes seconds : Nat)
  | stop
  | intervalFire (minutes seconds : Nat)
  | resume (minutes seconds : Nat)
deriving DecidableEq, Repr

/-- One controller step (src/main/time-controller.ts):
`start` (lines 55-67) returns immediately if the interval is armed, otherwise
runs one initial tick and arms the interval; `stop` (lines 72-77) clears the
interval if armed; `intervalFire` is the armed interval's callback, which only
exists (and so only fires) while running; `resume` is the power-monitor handler
installed unconditionally by the constructor (lines 99-109), which calls
`tick` regardless of whether the interval is armed. -/
def TimeController.step (c : TimeController) :
    TCInput → Except String (TimeController × List TCEvent)
  | .start m s =>
      if c.running then .ok (c, [])
      else do
        let (c2, evs) ← c.tick m s
        .ok ({ c2 with running := true }, evs)
  | .stop => .ok ({ c with running := false }, [])
  | .intervalFire m s =>
      if c.running then c.tick m s else .ok (c, [])
  | .resume m s => c.tick m s

/-- Run a sequence of inputs, threading the controller state and concatenating
the emitted events in order. -/
def TimeController.run (c : TimeController) :
    List TCInput → Except String (TimeController × List TCEvent)
  | [] => .ok (c, [])
  | i :: rest => do
    let (c2, evs) ← c.step i
    let (c3, evs2) ← c2.run rest
    .ok (c3, evs ++ evs2)

/-- Payload delivered to the window and tray observers on every tick, as
assembled by the app entry point (`createApp`, src/unnamed/part_002 lines
48-56): the emitted state together with `formatTime(state.remaining)`. -/
structure TimeUpdate where
  state : PomodoroState
  formattedTime : String
deriving DecidableEq, Repr

/-- Embedding of the `'tick'` listener registered in `createApp`: it computes
`formattedTime = timeController.formatTime(state.remaining)` and forwards both
to the window (`sendTimeUpdate`) and the tray (`updateCountdown`). -/
def appTickPayload (state : PomodoroState) : TimeUpdate :=
  { state := state, formattedTime := formatTime state.remaining }

/-- Predicate: the segment covers minute `m`, i.e. `m ∈ [startMinute, endMinute)`
(the `find` predicate of `getCurrentPeriod`). -/
def coversMinute (m : Nat) (sg : PomodoroSegment) : Bool :=
  decide (m ≥ sg.startMinute) && decide (m < sg.endMinute)

/-- Accessor for theorem statements: the mode computed at minute `m`, second
`s`, if the calculation succeeds. -/
def modeOf (m s : Nat) : Option PomodoroMode :=
  (getCurrentPeriod m s).toOption.map (fun st => st.type)

/-- Accessor for theorem statements: the remaining seconds computed at minute
`m`, second `s`, if the calculation succeeds. -/
def remainingOf (m s : Nat) : Option Int :=
  (getCurrentPeriod m s).toOption.map (fun st => st.remaining)

/-- Accessor for theorem statements: minute-of-hour of an absolute second
count `u` (seconds since some hour boundary). -/
def minuteAt (u : Nat) : Nat := (u / 60) % 60

/-- Accessor for theorem statements: second-of-minute of an absolute second
count `u`. -/
def secondAt (u : Nat) : Nat := u % 60

/-- Accessor for theorem statements: the segment the table lookup finds for
minute `m`. -/
def segAtMinute (m : Nat) : Option PomodoroSegment :=
  POMODORO_SEGMENTS.find? (coversMinute m)

/-- Recognizer for `tick` events, used to count initial ticks. -/
def isTickEvent : TCEvent → Bool
  | .tick _ => true
  | .periodChange _ => false

/-- Value of a decimal digit character, `none` on a non-digit. -/
def digitVal (c : Char) : Option Nat :=
  if '0' ≤ c ∧ c ≤ '9' then some (c.toNat - 48) else none

/-- Parse a non-empty list of decimal digit characters as a natural number. -/
def parseDigits (l : List Char) : Option Nat :=
  match l with
  | [] => none
  | _ => l.foldl (fun acc c => acc.bind (fun a => (digitVal c).map (fun d => a * 10 + d))) (some 0)

/-- Split a character list on `':'` separators. -/
def splitOnColon : List Char → List (List Char)
  | [] => [[]]
  | c :: rest =>
      if c = ':' then [] :: splitOnColon rest
      else
        match splitOnColon rest with
        | [] => [[c]]
        | g :: gs => (c :: g) :: gs

/-- Specification-side parse of an `"MM:SS"` string back to seconds, following
the spec's words: the two colon-separated fields read as decimal numbers `mm`
and `ss`, giving `mm*60 + ss`. -/
def parseMMSS (str : String) : Option Nat :=
  match splitOnColon str.data with
  | [mm, ss] => do
      let a ← parseDigits mm
      let b ← parseDigits ss
      some (a * 60 + b)
  | _ => none

/-- Specification-side zero-padding to two digits. -/
def zeroPad2 (n : Nat) : String :=
  if n < 10 then "0" ++ natToString n else natToString n

/-- Specification-side rendering of remaining seconds, following the spec's
words: minutes computed as `floor(remaining/60)`, seconds as `remaining mod 60`,
each zero-padded, joined by a colon. -/
def specFormattedMMSS (r : Nat) : String :=
  zeroPad2 (r / 60) ++ ":" ++ zeroPad2 (r % 60)

section Helpers

/-- Helper: the period calculation succeeds for every valid wall-clock minute
and second. -/
lemma getCurrentPeriod_isOk : ∀ m, m < 60 → ∀ s, s < 60 →
    (getCurrentPeriod m s).isOk = true := by decide

/-- Helper: a succeeding `Except` computation has an `ok` value. -/
lemma exists_ok {ε α : Type} (e : Except ε α) (h : e.isOk = true) : ∃ a, e = .ok a := by
  cases e with
  | error _ => simp [Except.isOk, Except.toBool] at h
  | ok a => exact ⟨a, rfl⟩

/-- Helper: explicit form of `TimeController.tick` once the period calculation
succeeds. -/
lemma tick_eq_of_ok (c : TimeController) {m s : Nat} {st : PomodoroState}
    (hst : getCurrentPeriod m s = .ok st) :
    c.tick m s = .ok ({ c with lastMode := some st.type },
      .tick st ::
        (match c.lastMode with
         | none => []
         | some lm => if lm ≠ st.type then [.periodChange st] else [])) := by
  unfold TimeController.tick
  rw [hst]
  rfl

/-- Helper: remaining seconds produced on the valid domain lie in `(0, 1500]`. -/
lemma remaining_bounds : ∀ m, m < 60 → ∀ s, s < 60 →
    ((remainingOf m s).all fun r => decide (0 < r) && decide (r ≤ 1500)) = true := by decide

end Helpers

set_option maxHeartbeats 1000000

/-- C1: for every minute `m ∈ [0,60)` and second `s ∈ [0,60)`, exactly one
segment of `POMODORO_SEGMENTS` covers `m`; `getCurrentPeriod` succeeds and
returns `remaining = endMinute*60 - (m*60 + s)` for that segment, a positive
integer with `0 < remaining ≤ 1800`. -/
theorem getCurrentPeriod_unique_segment_and_bounds (m s : Nat)
    (hm : m < 60) (hs : s < 60) :
    POMODORO_SEGMENTS.countP (coversMinute m) = 1 ∧
    (getCurrentPeriod m s).isOk = true ∧
    remainingOf m s = (POMODORO_SEGMENTS.find? (coversMinute m)).map
      (fun sg => (sg.endMinute : Int) * 60 - ((m : Int) * 60 + (s : Int))) ∧
    ((remainingOf m s).all fun r => decide (0 < r) && decide (r ≤ 1800)) = true := by
  have h : ∀ m, m < 60 → ∀ s, s < 60 →
      POMODORO_SEGMENTS.countP (coversMinute m) = 1 ∧
      (getCurrentPeriod m s).isOk = true ∧
      remainingOf m s = (POMODORO_SEGMENTS.find? (coversMinute m)).map
        (fun sg => (sg.endMinute : Int) * 60 - ((m : Int) * 60 + (s : Int))) ∧
      ((remainingOf m s).all fun r => decide (0 < r) && decide (r ≤ 1800)) = true := by
    decide
  exact h m hm s hs

/-- Witness for C1 at minute 24, second 59. -/
theorem getCurrentPeriod_unique_segment_and_bounds_witness :
    24 < 60 ∧ 59 < 60 ∧
    (POMODORO_SEGMENTS.countP (coversMinute 24) = 1 ∧
     (getCurrentPeriod 24 59).isOk = true ∧
     remainingOf 24 59 = (POMODORO_SEGMENTS.find? (coversMinute 24)).map
       (fun sg => (sg.endMinute : Int) * 60 - ((24 : Int) * 60 + (59 : Int))) ∧
     ((remainingOf 24 59).all fun r => decide (0 < r) && decide (r ≤ 1800)) = true) :=
  ⟨by decide, by decide,
   getCurrentPeriod_unique_segment_and_bounds 24 59 (by decide) (by decide)⟩

/-- C2: concrete scenarios. At 00:24:59 the period is Work with 1 second
remaining, formatted `"00:01"`; at 00:25:00 it is Rest with 300 seconds,
formatted `"05:00"`; at 00:59:59 it is Rest with 1 second; at 01:00:00 the
minute reading wraps to 0 (the hour is never consulted) and the period is Work
with 1500 seconds. -/
theorem concrete_time_scenarios :
    getCurrentPeriod 24 59 = .ok { type := .work, remaining := 1 } ∧
    formatTime 1 = "00:01" ∧
    getCurrentPeriod 25 0 = .ok { type := .rest, remaining := 300 } ∧
    formatTime 300 = "05:00" ∧
    getCurrentPeriod 59 59 = .ok { type := .rest, remaining := 1 } ∧
    getCurrentPeriod 0 0 = .ok { type := .work, remaining := 1500 } :=
  ⟨rfl, rfl, rfl, rfl, rfl, rfl⟩

/-- C3: on every tick, a `period-change` event is emitted exactly when the
newly computed mode differs from the previously emitted mode (`lastMode`); it
carries the new state, is emitted after the `tick` event of the same cycle, and
is never emitted when there is no prior emitted mode (`lastMode = none`, as on
the first tick after construction). -/
theorem tick_periodChange_exactly_on_mode_change (c : TimeController) (m s : Nat)
    (hm : m < 60) (hs : s < 60) :
    ∃ st c2 evs, getCurrentPeriod m s = .ok st ∧ c.tick m s = .ok (c2, evs) ∧
      (evs = [.tick st] ∨ evs = [.tick st, .periodChange st]) ∧
      ((TCEvent.periodChange st ∈ evs) ↔ (c.lastMode ≠ none ∧ c.lastMode ≠ some st.type)) ∧
      (c.lastMode = none → evs = [.tick st]) ∧
      c2.lastMode = some st.type := by
  obtain ⟨st, hst⟩ := exists_ok _ (getCurrentPeriod_isOk m hm s hs)
  have h := tick_eq_of_ok c hst
  cases hlm : c.lastMode with
  | none =>
      rw [hlm] at h
      exact ⟨st, _, _, hst, h, Or.inl rfl, by simp [hlm], fun _ => rfl, rfl⟩
  | some lm =>
      rw [hlm] at h
      dsimp only at h
      by_cases hne : lm = st.type
      · rw [if_neg (by simp [hne])] at h
        exact ⟨st, _, _, hst, h, Or.inl rfl, by simp [hlm, hne], by simp [hlm], rfl⟩
      · rw [if_pos hne] at h
        exact ⟨st, _, _, hst, h, Or.inr rfl, by simp [hlm, hne], by simp [hlm], rfl⟩

/-- Witness for C3: a controller whose last emitted mode is Work, ticking at
00:25:00 (a Rest minute), emits the tick and then the period-change. -/
theorem tick_periodChange_exactly_on_mode_change_witness :
    ∃ st c2 evs, getCurrentPeriod 25 0 = .ok st ∧
      (TimeController.mk true (some .work)).tick 25 0 = .ok (c2, evs) ∧
      (evs = [.tick st] ∨ evs = [.tick st, .periodChange st]) ∧
      ((TCEvent.periodChange st ∈ evs) ↔
        ((TimeController.mk true (some .work)).lastMode ≠ none ∧
         (TimeController.mk true (some .work)).lastMode ≠ some st.type)) ∧
      ((TimeController.mk true (some .work)).lastMode = none → evs = [.tick st]) ∧
      c2.lastMode = some st.type :=
  tick_periodChange_exactly_on_mode_change (TimeController.mk true (some .work)) 25 0
    (by decide) (by decide)

/-- C4: for consecutive per-second calls (absolute seconds `u` and `u+1` of the
hour cycle), if the mode is unchanged the remaining seconds drop by exactly one
(so strictly decrease); on the call where the mode changes, the remaining
seconds equal the new segment's full duration `(endMinute - startMinute) * 60`;
and the remaining seconds always lie in `(0, segment-length * 60]`. -/
theorem remaining_decreases_within_segment (u : Nat) (hu : u < 3600) :
    (modeOf (minuteAt (u + 1)) (secondAt (u + 1)) = modeOf (minuteAt u) (secondAt u) →
       remainingOf (minuteAt (u + 1)) (secondAt (u + 1)) =
         (remainingOf (minuteAt u) (secondAt u)).map (fun r => r - 1) ∧
       ((remainingOf (minuteAt u) (secondAt u)).all fun r1 =>
          (remainingOf (minuteAt (u + 1)) (secondAt (u + 1))).all fun r2 =>
            decide (r2 < r1)) = true) ∧
    (modeOf (minuteAt (u + 1)) (secondAt (u + 1)) ≠ modeOf (minuteAt u) (secondAt u) →
       remainingOf (minuteAt (u + 1)) (secondAt (u + 1)) =
         (segAtMinute (minuteAt (u + 1))).map
           (fun sg => ((sg.endMinute : Int) - (sg.startMinute : Int)) * 60)) ∧
    ((remainingOf (minuteAt u) (secondAt u)).all fun r =>
       decide (0 < r) && ((segAtMinute (minuteAt u)).all fun sg =>
         decide (r ≤ ((sg.endMinute : Int) - (sg.startMinute : Int)) * 60))) = true := by
  have h : ∀ a, a < 60 → ∀ b, b < 60 →
      (modeOf (minuteAt (a * 60 + b + 1)) (secondAt (a * 60 + b + 1)) =
         modeOf (minuteAt (a * 60 + b)) (secondAt (a * 60 + b)) →
         remainingOf (minuteAt (a * 60 + b + 1)) (secondAt (a * 60 + b + 1)) =
           (remainingOf (minuteAt (a * 60 + b)) (secondAt (a * 60 + b))).map (fun r => r - 1) ∧
         ((remainingOf (minuteAt (a * 60 + b)) (secondAt (a * 60 + b))).all fun r1 =>
            (remainingOf (minuteAt (a * 60 + b + 1)) (secondAt (a * 60 + b + 1))).all fun r2 =>
              decide (r2 < r1)) = true) ∧
      (modeOf (minuteAt (a * 60 + b + 1)) (secondAt (a * 60 + b + 1)) ≠
         modeOf (minuteAt (a * 60 + b)) (secondAt (a * 60 + b)) →
         remainingOf (minuteAt (a * 60 + b + 1)) (secondAt (a * 60 + b + 1)) =
           (segAtMinute (minuteAt (a * 60 + b + 1))).map
             (fun sg => ((sg.endMinute : Int) - (sg.startMinute : Int)) * 60)) ∧
      ((remainingOf (minuteAt (a * 60 + b)) (secondAt (a * 60 + b))).all fun r =>
         decide (0 < r) && ((segAtMinute (minuteAt (a * 60 + b))).all fun sg =>
           decide (r ≤ ((sg.endMinute : Int) - (sg.startMinute : Int)) * 60))) = true := by
    decide
  have h2 := h (u / 60) (by omega) (u % 60) (by omega)
  have he : u / 60 * 60 + u % 60 = u := by omega
  rw [he] at h2
  exact h2

/-- Witness for C4 at `u = 1499` (00:24:59 → 00:25:00, the Work→Rest change). -/
theorem remaining_decreases_within_segment_witness :
    1499 < 3600 ∧
    ((modeOf (minuteAt (1499 + 1)) (secondAt (1499 + 1)) = modeOf (minuteAt 1499) (secondAt 1499) →
        remainingOf (minuteAt (1499 + 1)) (secondAt (1499 + 1)) =
          (remainingOf (minuteAt 1499) (secondAt 1499)).map (fun r => r - 1) ∧
        ((remainingOf (minuteAt 1499) (secondAt 1499)).all fun r1 =>
           (remainingOf (minuteAt (1499 + 1)) (secondAt (1499 + 1))).all fun r2 =>
             decide (r2 < r1)) = true) ∧
     (modeOf (minuteAt (1499 + 1)) (secondAt (1499 + 1)) ≠ modeOf (minuteAt 1499) (secondAt 1499) →
        remainingOf (minuteAt (1499 + 1)) (secondAt (1499 + 1)) =
          (segAtMinute (minuteAt (1499 + 1))).map
            (fun sg => ((sg.endMinute : Int) - (sg.startMinute : Int)) * 60)) ∧
     ((remainingOf (minuteAt 1499) (secondAt 1499)).all fun r =>
        decide (0 < r) && ((segAtMinute (minuteAt 1499)).all fun sg =>
          decide (r ≤ ((sg.endMinute : Int) - (sg.startMinute : Int)) * 60))) = true) :=
  ⟨by decide, remaining_decreases_within_segment 1499 (by decide)⟩

/-- Helper: on the producible range `(0, 1500]`, the code's `formatTime` (JS
floor division, truncated remainder, `padStart`) agrees with the spec-side
zero-padded `MM:SS` rendering. -/
lemma formatTime_eq_spec (n : Nat) (h1 : 0 < n) (h2 : n ≤ 1500) :
    formatTime (n : Int) = specFormattedMMSS n := by
  have h : ∀ a, a < 25 → ∀ b, b < 60 →
      formatTime (((a * 60 + b + 1 : Nat) : Int)) = specFormattedMMSS (a * 60 + b + 1) := by
    decide
  have h3 := h ((n - 1) / 60) (by omega) ((n - 1) % 60) (by omega)
  have he : (n - 1) / 60 * 60 + (n - 1) % 60 + 1 = n := by omega
  rw [he] at h3
  exact h3

/-- Helper: remaining-seconds bounds extracted for a succeeding calculation. -/
lemma remaining_bounds_of_ok {m s : Nat} {st : PomodoroState} (hm : m < 60) (hs : s < 60)
    (hst : getCurrentPeriod m s = .ok st) : 0 < st.remaining ∧ st.remaining ≤ 1500 := by
  have hb := remaining_bounds m hm s hs
  rw [remainingOf, hst] at hb
  simp [Except.toOption, Option.all] at hb
  exact hb

/-- C5: the payload the app's tick listener delivers to the window and tray
observers carries the emitted state together with the `MM:SS` rendering of its
remaining seconds: zero-padded minutes `floor(remaining/60)` and seconds
`remaining mod 60` (the spec-side rendering `specFormattedMMSS`). -/
theorem tick_payload_carries_state_and_formatted (m s : Nat)
    (hm : m < 60) (hs : s < 60) :
    ∃ st, ∃ r : Nat, getCurrentPeriod m s = .ok st ∧ st.remaining = (r : Int) ∧
      appTickPayload st = { state := st, formattedTime := specFormattedMMSS r } := by
  obtain ⟨st, hst⟩ := exists_ok _ (getCurrentPeriod_isOk m hm s hs)
  obtain ⟨hb1, hb2⟩ := remaining_bounds_of_ok hm hs hst
  have hn : st.remaining = ((st.remaining.toNat : Nat) : Int) :=
    (Int.toNat_of_nonneg (le_of_lt hb1)).symm
  have h1 : 0 < st.remaining.toNat := by omega
  have h2 : st.remaining.toNat ≤ 1500 := by omega
  refine ⟨st, st.remaining.toNat, hst, hn, ?_⟩
  simp only [appTickPayload, TimeUpdate.mk.injEq, true_and]
  rw [hn]
  exact formatTime_eq_spec st.remaining.toNat h1 h2

/-- Witness for C5 at 00:24:59: the delivered payload is the Work state with 1
second remaining and the rendering `"00:01"`. -/
theorem tick_payload_carries_state_and_formatted_witness :
    ∃ st, ∃ r : Nat, getCurrentPeriod 24 59 = .ok st ∧ st.remaining = (r : Int) ∧
      appTickPayload st = { state := st, formattedTime := specFormattedMMSS r } :=
  tick_payload_carries_state_and_formatted 24 59 (by decide) (by decide)

/-- C8: for every remaining-seconds value in `(0, 1800]`, parsing the formatted
`MM:SS` string back as `mm*60 + ss` recovers the value (format-then-parse is
the identity on that domain). -/
theorem formatTime_roundtrip (r : Nat) (h1 : 0 < r) (h2 : r ≤ 1800) :
    parseMMSS (formatTime (r : Int)) = some r := by
  have h : ∀ a, a < 30 → ∀ b, b < 60 →
      parseMMSS (formatTime (((a * 60 + b + 1 : Nat) : Int))) = some (a * 60 + b + 1) := by
    decide
  have h3 := h ((r - 1) / 60) (by omega) ((r - 1) % 60) (by omega)
  have he : (r - 1) / 60 * 60 + (r - 1) % 60 + 1 = r := by omega
  rw [he] at h3
  exact h3

/-- Witness for C8 at `r = 90`: `"01:30"` parses back to 90. -/
theorem formatTime_roundtrip_witness :
    0 < 90 ∧ 90 ≤ 1800 ∧ parseMMSS (formatTime ((90 : Nat) : Int)) = some 90 :=
  ⟨by decide, by decide, formatTime_roundtrip 90 (by decide) (by decide)⟩

/-- Helper: bind of a successful `Except` computation reduces to the
continuation. -/
lemma exceptBind_ok {ε α β : Type} (a : α) (f : α → Except ε β) :
    (Except.ok a : Except ε α) >>= f = f a := rfl

/-- Counterexample to C6: after `start()` at 00:10:00 and `stop()`, a system
resume signal at 00:10:30 still emits a tick event — the power-monitor handler
calls `tick()` unconditionally, not only while running. -/
theorem stop_then_resume_still_ticks :
    TimeController.run { running := false, lastMode := none }
      [.start 10 0, .stop, .resume 10 30] =
    .ok ({ running := false, lastMode := some .work },
      [.tick { type := .work, remaining := 900 }, .tick { type := .work, remaining := 870 }]) := rfl

/-- C6 (amended): after `stop()` the recurring interval is disarmed, so as long
as only interval firings (and further stops) occur — no `start()` and no system
resume signal — no events at all are emitted and the controller stays stopped.
A resume signal, however, still triggers a tick even while stopped. -/
theorem stop_blocks_interval_ticks (c : TimeController) (ins : List TCInput)
    (h : ∀ i ∈ ins, (∃ m s, i = TCInput.intervalFire m s) ∨ i = TCInput.stop) :
    ∃ c2, TimeController.run { c with running := false } ins = .ok (c2, []) ∧
      c2.running = false := by
  suffices h2 : ∀ l, (∀ i ∈ l, (∃ m s, i = TCInput.intervalFire m s) ∨ i = TCInput.stop) →
      ∀ d : TimeController, d.running = false →
      ∃ c2, d.run l = .ok (c2, []) ∧ c2.running = false by
    exact h2 ins h { c with running := false } rfl
  intro l
  induction l with
  | nil => exact fun _ d hd => ⟨d, rfl, hd⟩
  | cons i rest ih =>
      intro hall d hd
      rcases hall i (List.mem_cons_self i rest) with ⟨m, s, rfl⟩ | rfl
      · obtain ⟨c2, hrun, hc2⟩ := ih (fun j hj => hall j (List.mem_cons_of_mem _ hj)) d hd
        exact ⟨c2, by simp [TimeController.run, TimeController.step, exceptBind_ok, hd, hrun], hc2⟩
      · obtain ⟨c2, hrun, hc2⟩ :=
          ih (fun j hj => hall j (List.mem_cons_of_mem _ hj)) { d with running := false } rfl
        exact ⟨c2, by simp [TimeController.run, TimeController.step, exceptBind_ok, hrun], hc2⟩

/-- Witness for the amended C6: a stopped controller fed two interval firings
and a stop emits nothing. -/
theorem stop_blocks_interval_ticks_witness :
    ∃ c2, TimeController.run { running := false, lastMode := some PomodoroMode.work }
        [TCInput.intervalFire 10 0, TCInput.stop, TCInput.intervalFire 20 5] =
      .ok (c2, []) ∧ c2.running = false :=
  stop_blocks_interval_ticks { running := true, lastMode := some PomodoroMode.work }
    [.intervalFire 10 0, .stop, .intervalFire 20 5]
    (by
      intro i hi
      simp only [List.mem_cons, List.not_mem_nil, or_false] at hi
      rcases hi with rfl | rfl | rfl
      · exact Or.inl ⟨10, 0, rfl⟩
      · exact Or.inr rfl
      · exact Or.inl ⟨20, 5, rfl⟩)

/-- C7: the period calculation fails (with the "invalid time state" error) if
and only if no segment of the table covers the minute; no segment covers the
minute exactly when every segment's check is false; and for every minute below
60 the calculation succeeds, so the error branch is unreachable on valid local
times. -/
theorem getCurrentPeriod_error_iff_uncovered (m s : Nat) :
    ((∃ e, getCurrentPeriod m s = .error e) ↔
       POMODORO_SEGMENTS.find? (coversMinute m) = none) ∧
    (POMODORO_SEGMENTS.find? (coversMinute m) = none ↔
       ∀ sg ∈ POMODORO_SEGMENTS, coversMinute m sg = false) ∧
    (m < 60 → (getCurrentPeriod m s).isOk = true) := by
  have hgp : getCurrentPeriod m s =
      match POMODORO_SEGMENTS.find? (coversMinute m) with
      | none => .error ("Invalid time state: " ++ natToString m ++ ":" ++ natToString s)
      | some segment =>
          .ok { type := segment.type,
                remaining := (segment.endMinute : Int) * 60 - ((m : Int) * 60 + (s : Int)) } := rfl
  refine ⟨?_, ?_, ?_⟩
  · cases hf : POMODORO_SEGMENTS.find? (coversMinute m) with
    | none => rw [hgp, hf]; simp
    | some sg => rw [hgp, hf]; simp
  · simp [List.find?_eq_none]
  · intro hm
    have hsome : ∀ n, n < 60 → (POMODORO_SEGMENTS.find? (coversMinute n)).isSome = true := by
      decide
    obtain ⟨sg, hfe⟩ := Option.isSome_iff_exists.mp (hsome m hm)
    rw [hgp, hfe]
    rfl

/-- Witness for C7 at minute 24: the calculation does not fail and succeeds. -/
theorem getCurrentPeriod_error_iff_uncovered_witness :
    ((∃ e, getCurrentPeriod 24 0 = .error e) ↔
       POMODORO_SEGMENTS.find? (coversMinute 24) = none) ∧
    (getCurrentPeriod 24 0).isOk = true :=
  ⟨(getCurrentPeriod_error_iff_uncovered 24 0).1,
   (getCurrentPeriod_error_iff_uncovered 24 0).2.2 (by decide)⟩

/-- C9: `start()` and `stop()` are idempotent. Starting twice equals starting
once and produces exactly one initial tick event; stopping twice equals
stopping once, produces no emissions and leaves the controller stopped with
nothing else changed. -/
theorem start_stop_idempotent (c : TimeController) (m s m2 s2 : Nat)
    (hm : m < 60) (hs : s < 60) :
    (TimeController.run { c with running := false } [.start m s, .start m2 s2] =
       TimeController.run { c with running := false } [.start m s]) ∧
    (∃ st evs, getCurrentPeriod m s = .ok st ∧
       TimeController.run { c with running := false } [.start m s] =
         .ok ({ running := true, lastMode := some st.type }, evs) ∧
       evs.countP isTickEvent = 1) ∧
    TimeController.run c [.stop, .stop] = .ok ({ c with running := false }, []) ∧
    TimeController.run c [.stop] = .ok ({ c with running := false }, []) := by
  obtain ⟨st, hst⟩ := exists_ok _ (getCurrentPeriod_isOk m hm s hs)
  refine ⟨?_, ?_, ?_, ?_⟩
  · cases hlm : c.lastMode with
    | none =>
        simp [TimeController.run, TimeController.step, TimeController.tick,
          exceptBind_ok, hst, hlm]
    | some lm =>
        by_cases hne : lm = st.type
        all_goals simp [TimeController.run, TimeController.step, TimeController.tick,
          exceptBind_ok, hst, hlm, hne]
  · cases hlm : c.lastMode with
    | none =>
        refine ⟨st, [TCEvent.tick st], hst, ?_,
          by simp [List.countP, List.countP.go, isTickEvent]⟩
        simp [TimeController.run, TimeController.step, TimeController.tick,
          exceptBind_ok, hst, hlm]
    | some lm =>
        by_cases hne : lm = st.type
        · refine ⟨st, [TCEvent.tick st], hst, ?_,
            by simp [List.countP, List.countP.go, isTickEvent]⟩
          simp [TimeController.run, TimeController.step, TimeController.tick,
            exceptBind_ok, hst, hlm, hne]
        · refine ⟨st, [TCEvent.tick st, TCEvent.periodChange st], hst, ?_,
            by simp [List.countP, List.countP.go, isTickEvent]⟩
          simp [TimeController.run, TimeController.step, TimeController.tick,
            exceptBind_ok, hst, hlm, hne]
  · simp [TimeController.run, TimeController.step, exceptBind_ok]
  · simp [TimeController.run, TimeController.step, exceptBind_ok]

/-- Witness for C9: a fresh controller started twice at 00:10 equals starting
once with one initial tick; a running controller stopped twice emits nothing. -/
theorem start_stop_idempotent_witness :
    (TimeController.run { running := false, lastMode := none }
        [TCInput.start 10 0, TCInput.start 10 1] =
       TimeController.run { running := false, lastMode := none } [TCInput.start 10 0]) ∧
    (∃ st evs, getCurrentPeriod 10 0 = .ok st ∧
       TimeController.run { running := false, lastMode := none } [TCInput.start 10 0] =
         .ok ({ running := true, lastMode := some st.type }, evs) ∧
       evs.countP isTickEvent = 1) ∧
    TimeController.run { running := true, lastMode := none } [TCInput.stop, TCInput.stop] =
      .ok ({ running := false, lastMode := none }, []) ∧
    TimeController.run { running := true, lastMode := none } [TCInput.stop] =
      .ok ({ running := false, lastMode := none }, []) :=
  start_stop_idempotent { running := true, lastMode := none } 10 0 10 1
    (by decide) (by decide)

/-- C10: `lastMode` survives `stop()` and a later `start()`: stopping changes
only the running flag, and the restart's initial tick emits a `period-change`
exactly when the newly computed mode differs from the mode last emitted before
the stop — neither call resets the prior mode to the undefined state. -/
theorem lastMode_survives_stop_start (c : TimeController) (m s : Nat)
    (hm : m < 60) (hs : s < 60) :
    TimeController.step c .stop = .ok ({ c with running := false }, []) ∧
    (∃ st c2 evs, getCurrentPeriod m s = .ok st ∧
      TimeController.run c [.stop, .start m s] = .ok (c2, evs) ∧
      ((TCEvent.periodChange st ∈ evs) ↔ (c.lastMode ≠ none ∧ c.lastMode ≠ some st.type)) ∧
      c2.lastMode = some st.type ∧ c2.running = true) := by
  obtain ⟨st, hst⟩ := exists_ok _ (getCurrentPeriod_isOk m hm s hs)
  refine ⟨rfl, ?_⟩
  cases hlm : c.lastMode with
  | none =>
      refine ⟨st, { running := true, lastMode := some st.type }, [TCEvent.tick st], hst, ?_,
        by simp [hlm], rfl, rfl⟩
      simp [TimeController.run, TimeController.step, TimeController.tick,
        exceptBind_ok, hst, hlm]
  | some lm =>
      by_cases hne : lm = st.type
      · refine ⟨st, { running := true, lastMode := some st.type }, [TCEvent.tick st], hst, ?_,
          by simp [hlm, hne], rfl, rfl⟩
        simp [TimeController.run, TimeController.step, TimeController.tick,
          exceptBind_ok, hst, hlm, hne]
      · refine ⟨st, { running := true, lastMode := some st.type },
          [TCEvent.tick st, TCEvent.periodChange st], hst, ?_, by simp [hlm, hne], rfl, rfl⟩
        simp [TimeController.run, TimeController.step, TimeController.tick,
          exceptBind_ok, hst, hlm, hne]

/-- Witness for C10: a running controller with last emitted mode Work, stopped
and restarted at 00:25:00 (a Rest minute), keeps the prior mode across the stop
and emits the period-change on the restart tick. -/
theorem lastMode_survives_stop_start_witness :
    TimeController.step { running := true, lastMode := some PomodoroMode.work } .stop =
      .ok ({ running := false, lastMode := some PomodoroMode.work }, []) ∧
    (∃ st c2 evs, getCurrentPeriod 25 0 = .ok st ∧
      TimeController.run { running := true, lastMode := some PomodoroMode.work }
        [TCInput.stop, TCInput.start 25 0] = .ok (c2, evs) ∧
      ((TCEvent.periodChange st ∈ evs) ↔
        (({ running := true, lastMode := some PomodoroMode.work } : TimeController).lastMode ≠ none ∧
         ({ running := true, lastMode := some PomodoroMode.work } : TimeController).lastMode ≠
           some st.type)) ∧
      c2.lastMode = some st.type ∧ c2.running = true) :=
  lastMode_survives_stop_start { running := true, lastMode := some PomodoroMode.work } 25 0
    (by decide) (by decide)
